import Mathlib

/-!
# Verification of the pyCl vector-addition scripts

Shallow embedding of the three PyOpenCL teaching scripts
`vector_additon.py`, `chain_vec_addition.py` and `vec_adiition_three.py`.

Float32 values are modelled by `FVal`: a finite value carries its exact
rational magnitude, and the IEEE-754 special values (signed infinity, NaN)
are explicit constructors.  Rounding of finite results is not modelled for
subtraction and division; every theorem below either holds for an arbitrary
interpretation of float addition (the device and the host perform the very
same sequence of additions, so the results are bit-identical whatever the
rounding), or depends only on the exact IEEE rules for zero divisors,
infinities and NaN comparisons, which involve no rounding.
-/

/-- A float32 value: a finite value (exact rational), a signed infinity
(`inf true` is negative infinity, `inf false` positive infinity), or NaN. -/
inductive FVal where
  | fin : ℚ → FVal
  | inf : Bool → FVal
  | nan : FVal
deriving DecidableEq, Repr

namespace FVal

/-- IEEE-754 subtraction on `FVal`; the finite-minus-finite case is kept
exact (rounding unmodelled — no theorem below depends on it). -/
def fsub : FVal → FVal → FVal
  | fin x, fin y => fin (x - y)
  | fin _, inf s => inf (!s)
  | inf s, fin _ => inf s
  | inf s, inf t => if s = t then nan else inf s
  | nan, _ => nan
  | _, nan => nan

/-- IEEE-754 division on `FVal`.  Dividing a nonzero finite value by zero
gives a signed infinity; `0 / 0` gives NaN; the finite-by-nonzero case is
kept exact. -/
def fdiv : FVal → FVal → FVal
  | fin x, fin y =>
      if y = 0 then (if x = 0 then nan else inf (decide (x < 0)))
      else fin (x / y)
  | fin _, inf _ => fin 0
  | inf s, fin y => inf (xor s (decide (y < 0)))
  | inf _, inf _ => nan
  | nan, _ => nan
  | _, nan => nan

/-- IEEE-754 absolute value on `FVal` (`numpy.absolute`). -/
def fabs : FVal → FVal
  | fin x => fin |x|
  | inf _ => inf false
  | nan => nan

/-- IEEE-754 strict less-than on `FVal`: any comparison with NaN is false. -/
def flt : FVal → FVal → Bool
  | nan, _ => false
  | _, nan => false
  | fin x, fin y => decide (x < y)
  | fin _, inf s => !s
  | inf s, fin _ => s
  | inf s, inf t => s && !t

end FVal

open FVal

/-- `tolerance = 0.001` of the scripts.  The claims proved below depend only
on it being a finite value, never on the exact rational of its binary
representation. -/
def tolerance : FVal := FVal.fin (1/1000)

/-- `relative_error = numpy.absolute((actual - expected) / expected)`,
the expression computed by the verification loop of every script. -/
def relative_error (actual expected : FVal) : FVal :=
  fabs (fdiv (fsub actual expected) expected)

/-- One iteration of the verification loop: `relative_error < tolerance`
(the index is counted correct exactly when this comparison is true). -/
def verifyStep (actual expected : FVal) : Bool :=
  flt (relative_error actual expected) tolerance

/-- The verification loop `for i in range(n)` of the scripts, processing
indices `0 .. n-1` in order: returns the final `correct` counter and the
list of indices printed as wrong, in print order. -/
def verifyAux (actual expected : Nat → FVal) : Nat → Nat × List Nat
  | 0 => (0, [])
  | n + 1 =>
      let p := verifyAux actual expected n
      if verifyStep (actual n) (expected n) then (p.1 + 1, p.2)
      else (p.1, p.2 ++ [n])

/-- A single memory access performed by a kernel work-item: which buffer
argument, at which element index. -/
inductive MemAccess where
  | read  (buf : String) (idx : Nat)
  | write (buf : String) (idx : Nat)
deriving DecidableEq, Repr

/-- Memory accesses of work-item `i` of the binary `vadd` kernel
(`vector_additon.py` lines 14-27 and, with the same body,
`chain_vec_addition.py` lines 8-17): `if (i < count) c[i] = a[i] + b[i];`,
so a guarded work-item performs no access at all. -/
def vadd2Accesses (i count : Nat) : List MemAccess :=
  if i < count then [.read "a" i, .read "b" i, .write "c" i] else []

/-- Memory accesses of work-item `i` of the ternary `vadd` kernel
(`vec_adiition_three.py` lines 8-18):
`if (i < count) d[i] = a[i] + b[i] + c[i];`. -/
def vadd3Accesses (i count : Nat) : List MemAccess :=
  if i < count then [.read "a" i, .read "b" i, .read "c" i, .write "d" i]
  else []

/-- The write accesses among a list of accesses, as (buffer, index) pairs. -/
def writesOf (l : List MemAccess) : List (String × Nat) :=
  l.filterMap fun a => match a with
    | .write b i => some (b, i)
    | .read _ _ => none

/-- Contents of the output buffer after one launch of the binary `vadd`
kernel with grid covering index `i`: work-items with `i < count` store
`a[i] + b[i]`, all others leave the buffer untouched.  `add` is the
(uninterpreted) IEEE-754 float32 addition, shared by device and host. -/
def vadd2 (add : FVal → FVal → FVal) (a b cInit : Nat → FVal)
    (count : Nat) (i : Nat) : FVal :=
  if i < count then add (a i) (b i) else cInit i

/-- Contents of the output buffer after one launch of the ternary `vadd`
kernel: `d[i] = a[i] + b[i] + c[i]` evaluates left to right, so a guarded
work-item stores `(a[i] + b[i]) + c[i]`. -/
def vadd3 (add : FVal → FVal → FVal) (a b c dInit : Nat → FVal)
    (count : Nat) (i : Nat) : FVal :=
  if i < count then add (add (a i) (b i)) (c i) else dInit i

/-- `chain_vec_addition.py` lines 64-70: the contents of buffer `d_z` after
the three in-order launches `X = A + B`, `Y = X + C`, `Z = Y + D` complete.
`xInit`, `yInit`, `zInit` are the uninitialised buffer contents
(`numpy.empty`). -/
def chainZ (add : FVal → FVal → FVal) (a b c d xInit yInit zInit : Nat → FVal)
    (n : Nat) : Nat → FVal :=
  vadd2 add (vadd2 add (vadd2 add a b xInit n) c yInit n) d zInit n

/-- `chain_vec_addition.py` line 84: the host reference
`expected = h_a[i] + h_b[i] + h_c[i] + h_d[i]`, which Python evaluates left
to right in float32. -/
def chainExpected (add : FVal → FVal → FVal) (a b c d : Nat → FVal)
    (i : Nat) : FVal :=
  add (add (add (a i) (b i)) (c i)) (d i)

/-- `vec_adiition_three.py` line 69: the host reference
`expected = h_a[i] + h_b[i] + h_c[i]`, evaluated left to right. -/
def ternExpected (add : FVal → FVal → FVal) (a b c : Nat → FVal)
    (i : Nat) : FVal :=
  add (add (a i) (b i)) (c i)

/-- `actual` is within relative tolerance `tol` of `expected`: whenever both
are finite values, `|actual - expected| ≤ tol * |expected|` holds of the
exact rationals. -/
def withinRelTol (actual expected : FVal) (tol : ℚ) : Prop :=
  ∀ qa qe : ℚ, actual = FVal.fin qa → expected = FVal.fin qe →
    |qa - qe| ≤ tol * |qe|

/-- The first `n` elements of a buffer, as printed by `print(h)` on a numpy
array of length `n`. -/
def vecList (f : Nat → FVal) (n : Nat) : List FVal :=
  (List.range n).map f

/-- What a script run makes user-visible: the final `correct` counter, the
indices printed as wrong (in order), and the vectors printed after the
verification loop (in print order). -/
structure RunReport where
  correct : Nat
  wrongPrinted : List Nat
  finalPrints : List (List FVal)
deriving DecidableEq, Repr

/-- `chain_vec_addition.py` as a whole: `vector_size = 4096`, three chained
binary-add launches, the verification loop against
`h_a[i] + h_b[i] + h_c[i] + h_d[i]`, and the single final statement
`print(h_c)` (line 94) — which prints the third input vector. -/
def chainScriptRun (add : FVal → FVal → FVal)
    (a b c d xInit yInit zInit : Nat → FVal) : RunReport :=
  let z := chainZ add a b c d xInit yInit zInit 4096
  let p := verifyAux z (chainExpected add a b c d) 4096
  ⟨p.1, p.2, [vecList c 4096]⟩

/-- `vector_additon.py` as a whole: `vector_size = 1024`, one binary-add
launch, the verification loop against `h_a[i] + h_b[i]`, and the final
statements `print(h_a[:10])`, `print(h_b[:10])`, `print(h_c[:10])`
(lines 108-111), the last of which prints the first ten elements of the
output vector. -/
def vecAddScriptRun (add : FVal → FVal → FVal)
    (a b cInit : Nat → FVal) : RunReport :=
  let c := vadd2 add a b cInit 1024
  let p := verifyAux c (fun i => add (a i) (b i)) 1024
  ⟨p.1, p.2, [vecList a 10, vecList b 10, vecList c 10]⟩

/-- `vec_adiition_three.py` as a whole: `vector_size = 4096`, one
ternary-add launch, the verification loop against
`h_a[i] + h_b[i] + h_c[i]`, and the final statement `print(h_d)` (line 79),
which prints the full output vector. -/
def vec3ScriptRun (add : FVal → FVal → FVal)
    (a b c dInit : Nat → FVal) : RunReport :=
  let d := vadd3 add a b c dInit 4096
  let p := verifyAux d (ternExpected add a b c) 4096
  ⟨p.1, p.2, [vecList d 4096]⟩

/-- The claim that a script run reports the output vector: its list of
post-loop prints is exactly the full output vector and nothing else. -/
def reportsOutput (r : RunReport) (out : Nat → FVal) (n : Nat) : Prop :=
  r.finalPrints = [vecList out n]

/-- One host-side step of a script, in source order.  `hostAlloc` is a
numpy array creation, `allocBuffer` a `cl.Buffer` device allocation. -/
inductive Step where
  | createContext
  | createQueue
  | buildProgram
  | hostAlloc   (name : String)
  | allocBuffer (name : String)
  | setKernelArgDtypes
  | launch      (outBuf : String)
  | finishQueue
  | copyBack    (dst : String)
  | verifyLoop
  | printLine
deriving DecidableEq, Repr

/-- Executing a script's step list: steps run in source order; if the
program build fails (`buildOk = false`), `Program(...).build()` raises and
the run aborts there, the attempted build being the last executed step. -/
def runScript (buildOk : Bool) : List Step → List Step
  | [] => []
  | s :: rest =>
      if s = Step.buildProgram ∧ buildOk = false then [s]
      else s :: runScript buildOk rest

/-- The steps of `vector_additon.py` in source order (lines 38-111). -/
def vecAddSteps : List Step :=
  [.createContext, .createQueue, .buildProgram,
   .hostAlloc "h_a", .hostAlloc "h_b", .hostAlloc "h_c",
   .allocBuffer "d_a", .allocBuffer "d_b", .allocBuffer "d_c",
   .setKernelArgDtypes, .launch "d_c", .finishQueue, .copyBack "h_c",
   .verifyLoop, .printLine, .printLine, .printLine]

/-- The steps of `chain_vec_addition.py` in source order (lines 25-94). -/
def chainSteps : List Step :=
  [.createContext, .createQueue, .buildProgram,
   .hostAlloc "h_a", .hostAlloc "h_b", .hostAlloc "h_c", .hostAlloc "h_d",
   .hostAlloc "h_x", .hostAlloc "h_y", .hostAlloc "h_z",
   .allocBuffer "d_a", .allocBuffer "d_b", .allocBuffer "d_c",
   .allocBuffer "d_d", .allocBuffer "d_x", .allocBuffer "d_y",
   .allocBuffer "d_z",
   .setKernelArgDtypes, .launch "d_x", .launch "d_y", .launch "d_z",
   .finishQueue, .copyBack "h_z", .verifyLoop, .printLine]

/-- The steps of `vec_adiition_three.py` in source order (lines 26-79). -/
def vec3Steps : List Step :=
  [.createContext, .createQueue, .buildProgram,
   .hostAlloc "h_a", .hostAlloc "h_b", .hostAlloc "h_c", .hostAlloc "h_d",
   .allocBuffer "d_a", .allocBuffer "d_b", .allocBuffer "d_c",
   .allocBuffer "d_d",
   .setKernelArgDtypes, .launch "d_d", .finishQueue, .copyBack "h_d",
   .verifyLoop, .printLine]

/-- Which device buffers a kernel launch reads and which it writes. -/
structure LaunchSpec where
  reads : List String
  writes : List String
deriving DecidableEq, Repr

/-- The three launches of `chain_vec_addition.py` (lines 64, 67, 70), in
enqueue order on the single in-order queue. -/
def chainLaunches : List LaunchSpec :=
  [⟨["d_a", "d_b"], ["d_x"]⟩,
   ⟨["d_x", "d_c"], ["d_y"]⟩,
   ⟨["d_y", "d_d"], ["d_z"]⟩]

/-- The single launch of `vector_additon.py` (line 78). -/
def vecAddLaunches : List LaunchSpec := [⟨["d_a", "d_b"], ["d_c"]⟩]

/-- The single launch of `vec_adiition_three.py` (line 55). -/
def vec3Launches : List LaunchSpec := [⟨["d_a", "d_b", "d_c"], ["d_d"]⟩]

/-- The `cl.mem_flags` access mode a device buffer is created with. -/
inductive MemFlag where
  | readOnly
  | readWrite
  | writeOnly
deriving DecidableEq, Repr

/-- Buffer creation flags of `chain_vec_addition.py` (lines 47-57). -/
def chainBufferFlags : List (String × MemFlag) :=
  [("d_a", .readOnly), ("d_b", .readOnly), ("d_c", .readOnly),
   ("d_d", .readOnly), ("d_x", .readWrite), ("d_y", .readWrite),
   ("d_z", .writeOnly)]

/-- Buffer creation flags of `vector_additon.py` (lines 63-67). -/
def vecAddBufferFlags : List (String × MemFlag) :=
  [("d_a", .readOnly), ("d_b", .readOnly), ("d_c", .writeOnly)]

/-- Buffer creation flags of `vec_adiition_three.py` (lines 43-48). -/
def vec3BufferFlags : List (String × MemFlag) :=
  [("d_a", .readOnly), ("d_b", .readOnly), ("d_c", .readOnly),
   ("d_d", .writeOnly)]

/-- The input device buffers of `chain_vec_addition.py`. -/
def chainInputs : List String := ["d_a", "d_b", "d_c", "d_d"]

/-- The intermediate device buffers of `chain_vec_addition.py`. -/
def chainIntermediates : List String := ["d_x", "d_y"]

/-- The input device buffers of `vector_additon.py`. -/
def vecAddInputs : List String := ["d_a", "d_b"]

/-- The input device buffers of `vec_adiition_three.py`. -/
def vec3Inputs : List String := ["d_a", "d_b", "d_c"]

/-- Host arrays a script writes to after creation: only the `enqueue_copy`
destination receiving the device result is ever written host-side. -/
def chainHostWrites : List String := ["h_z"]

/-- Host-side writes of `vector_additon.py`: only the copy-back into `h_c`. -/
def vecAddHostWrites : List String := ["h_c"]

/-- Host-side writes of `vec_adiition_three.py`: only the copy-back into
`h_d`. -/
def vec3HostWrites : List String := ["h_d"]

/-- Indices of the launches that write buffer `m`, in enqueue order. -/
def writerIdxs (ls : List LaunchSpec) (m : String) : List Nat :=
  (List.range ls.length).filter fun j => m ∈ (ls.getD j ⟨[], []⟩).writes

/-- Indices of the launches that read buffer `m`, in enqueue order. -/
def readerIdxs (ls : List LaunchSpec) (m : String) : List Nat :=
  (List.range ls.length).filter fun j => m ∈ (ls.getD j ⟨[], []⟩).reads

/-- Sample interpretation of float32 addition used to instantiate the
parametric theorems at concrete inputs: exact rational addition on finite
values. -/
def qadd : FVal → FVal → FVal
  | .fin x, .fin y => .fin (x + y)
  | _, _ => .nan

/-- The constant buffer of ones, a concrete instantiation input. -/
def oneV : Nat → FVal := fun _ => .fin 1

/-- The constant buffer of zeros, a concrete instantiation input. -/
def zeroV : Nat → FVal := fun _ => .fin 0

theorem verifyAux_total (a e : Nat → FVal) :
    ∀ n, (verifyAux a e n).1 + (verifyAux a e n).2.length = n := by
  intro n
  induction n with
  | zero => rfl
  | succ k ih =>
      unfold verifyAux
      by_cases h : verifyStep (a k) (e k) = true
      · simp [h]
        omega
      · simp [eq_false_of_ne_true h]
        omega

theorem verifyAux_mem_wrong (a e : Nat → FVal) (n i : Nat) (hi : i < n)
    (hs : verifyStep (a i) (e i) = false) :
    i ∈ (verifyAux a e n).2 := by
  induction n with
  | zero => omega
  | succ k ih =>
      unfold verifyAux
      by_cases hik : i = k
      · subst hik
        simp [hs]
      · have hik2 : i < k := by omega
        by_cases h : verifyStep (a k) (e k) = true
        · simp [h]
          exact ih hik2
        · simp [eq_false_of_ne_true h]
          exact Or.inl (ih hik2)

theorem fabs_ne_negInf (v : FVal) : FVal.fabs v ≠ FVal.inf true := by
  cases v <;> simp [FVal.fabs]

theorem relative_error_ne_negInf (x y : FVal) :
    relative_error x y ≠ FVal.inf true :=
  fabs_ne_negInf _

theorem withinRelTol_of_eq (x y : FVal) (tol : ℚ) (ht : 0 ≤ tol)
    (hxy : x = y) : withinRelTol x y tol := by
  intro qa qe ha he
  subst hxy
  rw [ha] at he
  cases he
  simp
  positivity

theorem chainZ_eq_expected (add : FVal → FVal → FVal)
    (a b c d xInit yInit zInit : Nat → FVal) (n i : Nat) (h : i < n) :
    chainZ add a b c d xInit yInit zInit n i = chainExpected add a b c d i := by
  simp [chainZ, vadd2, chainExpected, h]

theorem vadd3_eq_expected (add : FVal → FVal → FVal)
    (a b c dInit : Nat → FVal) (n i : Nat) (h : i < n) :
    vadd3 add a b c dInit n i = ternExpected add a b c i := by
  simp [vadd3, ternExpected, h]

theorem verifyStep_expected_zero (x : FVal) :
    verifyStep x (FVal.fin 0) = false := by
  cases x with
  | fin q =>
      by_cases hq : q = 0 <;>
        simp [verifyStep, relative_error, FVal.fsub, FVal.fdiv, FVal.fabs,
          FVal.flt, tolerance, hq]
  | inf s =>
      simp [verifyStep, relative_error, FVal.fsub, FVal.fdiv, FVal.fabs,
        FVal.flt, tolerance]
  | nan =>
      simp [verifyStep, relative_error, FVal.fsub, FVal.fdiv, FVal.fabs,
        FVal.flt, tolerance]

/-- C1: in `chain_vec_addition.py` with `vector_size = 4096`, after the
three binary-add launches `X = A + B`, `Y = X + C`, `Z = Y + D` complete and
the result is read back, `out[i]` equals `v1[i] + v2[i] + v3[i] + v4[i]`
(float32 addition, evaluated left to right as the host reference does) for
every `i < 4096` — exactly, for any interpretation `add` of float32
addition, hence in particular within relative tolerance `0.001`. -/
theorem spec_C1 (add : FVal → FVal → FVal)
    (a b c d xInit yInit zInit : Nat → FVal) (i : Nat) (h : i < 4096) :
    chainZ add a b c d xInit yInit zInit 4096 i = chainExpected add a b c d i
    ∧ withinRelTol (chainZ add a b c d xInit yInit zInit 4096 i)
        (chainExpected add a b c d i) (1/1000) := by
  have heq := chainZ_eq_expected add a b c d xInit yInit zInit 4096 i h
  exact ⟨heq, withinRelTol_of_eq _ _ _ (by norm_num) heq⟩

/-- Witness for C1 at `i = 0` with concrete buffers of ones. -/
theorem spec_C1_witness :
    chainZ qadd oneV oneV oneV oneV zeroV zeroV zeroV 4096 0
      = chainExpected qadd oneV oneV oneV oneV 0
    ∧ withinRelTol (chainZ qadd oneV oneV oneV oneV zeroV zeroV zeroV 4096 0)
        (chainExpected qadd oneV oneV oneV oneV 0) (1/1000) :=
  spec_C1 qadd oneV oneV oneV oneV zeroV zeroV zeroV 0 (by decide)

/-- C2: in `vec_adiition_three.py` with `vector_size = 4096`, one launch of
the ternary-add kernel produces `out[i] = v1[i] + v2[i] + v3[i]` (float32
addition, left to right) for every `i < 4096` — exactly, for any
interpretation `add` of float32 addition, hence within relative tolerance
`0.001`. -/
theorem spec_C2 (add : FVal → FVal → FVal) (a b c dInit : Nat → FVal)
    (i : Nat) (h : i < 4096) :
    vadd3 add a b c dInit 4096 i = ternExpected add a b c i
    ∧ withinRelTol (vadd3 add a b c dInit 4096 i) (ternExpected add a b c i)
        (1/1000) := by
  have heq := vadd3_eq_expected add a b c dInit 4096 i h
  exact ⟨heq, withinRelTol_of_eq _ _ _ (by norm_num) heq⟩

/-- Witness for C2 at `i = 0` with concrete buffers of ones. -/
theorem spec_C2_witness :
    vadd3 qadd oneV oneV oneV zeroV 4096 0 = ternExpected qadd oneV oneV oneV 0
    ∧ withinRelTol (vadd3 qadd oneV oneV oneV zeroV 4096 0)
        (ternExpected qadd oneV oneV oneV 0) (1/1000) :=
  spec_C2 qadd oneV oneV oneV zeroV 0 (by decide)

/-- C3: in every kernel of the three scripts, a work-item whose global
index satisfies `i ≥ count` performs no memory access at all — neither a
read of an input buffer element nor a write of an output buffer element —
so no out-of-bounds write occurs however large the launch grid is.
(`vector_additon.py` and `chain_vec_addition.py` share the binary kernel
body modelled by `vadd2Accesses`.) -/
theorem spec_C3 (i count : Nat) (h : count ≤ i) :
    vadd2Accesses i count = [] ∧ vadd3Accesses i count = [] := by
  have hn : ¬ i < count := by omega
  simp [vadd2Accesses, vadd3Accesses, hn]

/-- Witness for C3 at `i = 5`, `count = 3`. -/
theorem spec_C3_witness :
    vadd2Accesses 5 3 = [] ∧ vadd3Accesses 5 3 = [] :=
  spec_C3 5 3 (by decide)

/-- C4: the verification routine computes only
`|(actual - expected) / expected|`, with no special case for
`expected = 0`: at a zero expected value the computed quantity is exactly
the IEEE divide-by-zero result (NaN for `0/0`, `+∞` otherwise), and the
check `relative_error < tolerance` never passes there — for any actual
value, including `actual = 0` which an absolute-error check would accept. -/
theorem spec_C4 (q : ℚ) :
    (relative_error (FVal.fin q) (FVal.fin 0)
        = if q = 0 then FVal.nan else FVal.inf false)
    ∧ (∀ x : FVal, verifyStep x (FVal.fin 0) = false) := by
  constructor
  · by_cases hq : q = 0 <;>
      simp [relative_error, FVal.fsub, FVal.fdiv, FVal.fabs, hq]
  · exact verifyStep_expected_zero

/-- C5: for every choice of four float32 input vectors, every length `n`
and any interpretation `add` of float32 addition, the three-launch chained
accumulation `(((v1+v2)+v3)+v4)` agrees at every index `i < n` with the
direct elementwise sum `v1[i]+v2[i]+v3[i]+v4[i]` as the host computes it
(left to right) — exactly, hence within relative tolerance `0.001`. -/
theorem spec_C5 (add : FVal → FVal → FVal)
    (a b c d xInit yInit zInit : Nat → FVal) (n i : Nat) (h : i < n) :
    chainZ add a b c d xInit yInit zInit n i = chainExpected add a b c d i
    ∧ withinRelTol (chainZ add a b c d xInit yInit zInit n i)
        (chainExpected add a b c d i) (1/1000) := by
  have heq := chainZ_eq_expected add a b c d xInit yInit zInit n i h
  exact ⟨heq, withinRelTol_of_eq _ _ _ (by norm_num) heq⟩

/-- Witness for C5 at `n = 1`, `i = 0` with concrete buffers of ones. -/
theorem spec_C5_witness :
    chainZ qadd oneV oneV oneV oneV zeroV zeroV zeroV 1 0
      = chainExpected qadd oneV oneV oneV oneV 0
    ∧ withinRelTol (chainZ qadd oneV oneV oneV oneV zeroV zeroV zeroV 1 0)
        (chainExpected qadd oneV oneV oneV oneV 0) (1/1000) :=
  spec_C5 qadd oneV oneV oneV oneV zeroV zeroV zeroV 1 0 (by decide)

theorem vecList_congr (f g : Nat → FVal) (n i : Nat) (hi : i < n)
    (h : vecList f n = vecList g n) : f i = g i := by
  have h2 := congrArg (fun l => l[i]?) h
  simpa [vecList, List.getElem?_map, List.getElem?_range hi] using h2

/-- C6 counterexample: `chain_vec_addition.py` does not report the output
vector.  With all-ones inputs (and exact addition as the interpretation of
float32 addition) the single post-loop print, `print(h_c)` at line 94, is
the third input vector (all ones), not the read-back output `h_z`
(all fours). -/
theorem spec_C6_counterexample :
    (chainScriptRun qadd oneV oneV oneV oneV zeroV zeroV zeroV).finalPrints
      ≠ [vecList (chainZ qadd oneV oneV oneV oneV zeroV zeroV zeroV 4096) 4096] := by
  intro h
  have h0 : (chainScriptRun qadd oneV oneV oneV oneV zeroV zeroV
      zeroV).finalPrints = [vecList oneV 4096] := rfl
  rw [h0] at h
  simp only [List.cons.injEq, and_true] at h
  have hf := vecList_congr oneV
    (chainZ qadd oneV oneV oneV oneV zeroV zeroV zeroV 4096) 4096 0
    (by norm_num) h
  rw [chainZ_eq_expected qadd oneV oneV oneV oneV zeroV zeroV zeroV 4096 0
    (by norm_num)] at hf
  simp only [oneV, chainExpected, qadd, FVal.fin.injEq] at hf
  norm_num at hf

/-- C6 (amended): on a verification mismatch each script prints every
offending index and the run completes (every index is counted either
correct or wrong — a mismatch never aborts).  Afterwards
`vector_additon.py` reports the first ten elements of each input and of the
output, `vec_adiition_three.py` reports the full output vector, and
`chain_vec_addition.py` reports the third *input* vector `h_c` rather than
the output. -/
theorem spec_C6_amended (add : FVal → FVal → FVal)
    (a b c d xInit yInit zInit a2 b2 cInit2 a3 b3 c3 dInit3 : Nat → FVal) :
    ((chainScriptRun add a b c d xInit yInit zInit).correct
        + (chainScriptRun add a b c d xInit yInit zInit).wrongPrinted.length
        = 4096)
    ∧ (∀ i, i < 4096 →
        verifyStep (chainZ add a b c d xInit yInit zInit 4096 i)
            (chainExpected add a b c d i) = false →
        i ∈ (chainScriptRun add a b c d xInit yInit zInit).wrongPrinted)
    ∧ (chainScriptRun add a b c d xInit yInit zInit).finalPrints
        = [vecList c 4096]
    ∧ ((vecAddScriptRun add a2 b2 cInit2).correct
        + (vecAddScriptRun add a2 b2 cInit2).wrongPrinted.length = 1024)
    ∧ (∀ i, i < 1024 →
        verifyStep (vadd2 add a2 b2 cInit2 1024 i) (add (a2 i) (b2 i)) = false →
        i ∈ (vecAddScriptRun add a2 b2 cInit2).wrongPrinted)
    ∧ (vecAddScriptRun add a2 b2 cInit2).finalPrints
        = [vecList a2 10, vecList b2 10, vecList (vadd2 add a2 b2 cInit2 1024) 10]
    ∧ ((vec3ScriptRun add a3 b3 c3 dInit3).correct
        + (vec3ScriptRun add a3 b3 c3 dInit3).wrongPrinted.length = 4096)
    ∧ (∀ i, i < 4096 →
        verifyStep (vadd3 add a3 b3 c3 dInit3 4096 i)
            (ternExpected add a3 b3 c3 i) = false →
        i ∈ (vec3ScriptRun add a3 b3 c3 dInit3).wrongPrinted)
    ∧ (vec3ScriptRun add a3 b3 c3 dInit3).finalPrints
        = [vecList (vadd3 add a3 b3 c3 dInit3 4096) 4096] :=
  ⟨verifyAux_total _ _ 4096,
   fun i hi hs => verifyAux_mem_wrong _ _ 4096 i hi hs,
   rfl,
   verifyAux_total _ _ 1024,
   fun i hi hs => verifyAux_mem_wrong _ _ 1024 i hi hs,
   rfl,
   verifyAux_total _ _ 4096,
   fun i hi hs => verifyAux_mem_wrong _ _ 4096 i hi hs,
   rfl⟩

/-- Witness for the amended C6: with all-zero inputs the expected sum is 0
at index 0, the check fails there, and index 0 is indeed among the printed
wrong indices of the chain script. -/
theorem spec_C6_amended_witness :
    0 ∈ (chainScriptRun qadd zeroV zeroV zeroV zeroV zeroV zeroV
        zeroV).wrongPrinted :=
  (spec_C6_amended qadd zeroV zeroV zeroV zeroV zeroV zeroV zeroV zeroV zeroV
      zeroV zeroV zeroV zeroV zeroV).2.1 0 (by norm_num)
    (by
      rw [chainZ_eq_expected qadd zeroV zeroV zeroV zeroV zeroV zeroV zeroV
        4096 0 (by norm_num)]
      have hE : chainExpected qadd zeroV zeroV zeroV zeroV 0 = FVal.fin 0 := by
        simp [chainExpected, qadd, zeroV]
      rw [hE]
      exact verifyStep_expected_zero _)

/-- C7: if the kernel source fails to compile, each of the three scripts
aborts at the `Program(...).build()` step, before any `cl.Buffer` device
allocation and before any launch: the executed step prefix is exactly
context creation, queue creation and the failed build attempt. -/
theorem spec_C7 :
    runScript false vecAddSteps
      = [Step.createContext, Step.createQueue, Step.buildProgram]
    ∧ runScript false chainSteps
      = [Step.createContext, Step.createQueue, Step.buildProgram]
    ∧ runScript false vec3Steps
      = [Step.createContext, Step.createQueue, Step.buildProgram]
    ∧ (∀ nm : String,
        Step.allocBuffer nm ∉ runScript false vecAddSteps
        ∧ Step.allocBuffer nm ∉ runScript false chainSteps
        ∧ Step.allocBuffer nm ∉ runScript false vec3Steps
        ∧ Step.launch nm ∉ runScript false vecAddSteps
        ∧ Step.launch nm ∉ runScript false chainSteps
        ∧ Step.launch nm ∉ runScript false vec3Steps) := by
  have h1 : runScript false vecAddSteps
      = [Step.createContext, Step.createQueue, Step.buildProgram] := by decide
  have h2 : runScript false chainSteps
      = [Step.createContext, Step.createQueue, Step.buildProgram] := by decide
  have h3 : runScript false vec3Steps
      = [Step.createContext, Step.createQueue, Step.buildProgram] := by decide
  refine ⟨h1, h2, h3, fun nm => ?_⟩
  simp [h1, h2, h3]

/-- C8: within one launch, a work-item `i < count` of either kernel writes
exactly one output element — its own index (`c[i]` for the binary kernel,
`d[i]` for the ternary one) — and the write sets of distinct work-items are
disjoint. -/
theorem spec_C8 (i j count : Nat) (hi : i < count) (hj : j < count)
    (hne : i ≠ j) :
    writesOf (vadd2Accesses i count) = [("c", i)]
    ∧ writesOf (vadd3Accesses i count) = [("d", i)]
    ∧ List.Disjoint (writesOf (vadd2Accesses i count))
        (writesOf (vadd2Accesses j count))
    ∧ List.Disjoint (writesOf (vadd3Accesses i count))
        (writesOf (vadd3Accesses j count)) := by
  have h2i : writesOf (vadd2Accesses i count) = [("c", i)] := by
    simp [writesOf, vadd2Accesses, hi]
  have h2j : writesOf (vadd2Accesses j count) = [("c", j)] := by
    simp [writesOf, vadd2Accesses, hj]
  have h3i : writesOf (vadd3Accesses i count) = [("d", i)] := by
    simp [writesOf, vadd3Accesses, hi]
  have h3j : writesOf (vadd3Accesses j count) = [("d", j)] := by
    simp [writesOf, vadd3Accesses, hj]
  refine ⟨h2i, h3i, ?_, ?_⟩
  · intro x hx1 hx2
    rw [h2i] at hx1
    rw [h2j] at hx2
    simp at hx1 hx2
    rw [hx1] at hx2
    simp at hx2
    exact hne hx2
  · intro x hx1 hx2
    rw [h3i] at hx1
    rw [h3j] at hx2
    simp at hx1 hx2
    rw [hx1] at hx2
    simp at hx2
    exact hne hx2

/-- Witness for C8 at `i = 0`, `j = 1`, `count = 2`. -/
theorem spec_C8_witness :
    writesOf (vadd2Accesses 0 2) = [("c", 0)]
    ∧ writesOf (vadd3Accesses 0 2) = [("d", 0)]
    ∧ List.Disjoint (writesOf (vadd2Accesses 0 2))
        (writesOf (vadd2Accesses 1 2))
    ∧ List.Disjoint (writesOf (vadd3Accesses 0 2))
        (writesOf (vadd3Accesses 1 2)) :=
  spec_C8 0 1 2 (by decide) (by decide) (by decide)

/-- C9: in each script the input device buffers are created `READ_ONLY` and
written by no launch, the host never writes an input host array after
creation (its only host-side write is the copy-back destination), and in
the chain script each intermediate buffer (`d_x`, `d_y`) is written by
exactly one launch and read by exactly one strictly later launch. -/
theorem spec_C9 :
    (∀ b ∈ chainInputs, (b, MemFlag.readOnly) ∈ chainBufferFlags)
    ∧ (∀ b ∈ chainInputs, ∀ L ∈ chainLaunches, b ∉ L.writes)
    ∧ (∀ h ∈ ["h_a", "h_b", "h_c", "h_d"], h ∉ chainHostWrites)
    ∧ writerIdxs chainLaunches "d_x" = [0]
    ∧ readerIdxs chainLaunches "d_x" = [1]
    ∧ writerIdxs chainLaunches "d_y" = [1]
    ∧ readerIdxs chainLaunches "d_y" = [2]
    ∧ (∀ b ∈ vecAddInputs, (b, MemFlag.readOnly) ∈ vecAddBufferFlags)
    ∧ (∀ b ∈ vecAddInputs, ∀ L ∈ vecAddLaunches, b ∉ L.writes)
    ∧ (∀ h ∈ ["h_a", "h_b"], h ∉ vecAddHostWrites)
    ∧ (∀ b ∈ vec3Inputs, (b, MemFlag.readOnly) ∈ vec3BufferFlags)
    ∧ (∀ b ∈ vec3Inputs, ∀ L ∈ vec3Launches, b ∉ L.writes)
    ∧ (∀ h ∈ ["h_a", "h_b", "h_c"], h ∉ vec3HostWrites) := by
  decide

/-- C10: the verification loop is total: whenever the computed relative
error at index `i` is NaN or infinite (it is never negative infinity, being
an absolute value), the comparison `relative_error < tolerance` is false,
so `i` is counted wrong and printed, and the loop still processes all `n`
indices. -/
theorem spec_C10 (actual expected : Nat → FVal) (n i : Nat) (hi : i < n)
    (h : relative_error (actual i) (expected i) = FVal.nan
        ∨ relative_error (actual i) (expected i) = FVal.inf false) :
    verifyStep (actual i) (expected i) = false
    ∧ i ∈ (verifyAux actual expected n).2
    ∧ (verifyAux actual expected n).1
        + (verifyAux actual expected n).2.length = n
    ∧ (∀ x y : FVal, relative_error x y ≠ FVal.inf true) := by
  have hstep : verifyStep (actual i) (expected i) = false := by
    rcases h with h | h <;> simp [verifyStep, h, FVal.flt, tolerance]
  exact ⟨hstep, verifyAux_mem_wrong _ _ n i hi hstep, verifyAux_total _ _ n,
    relative_error_ne_negInf⟩

/-- Witness for C10 at `n = 1`, `i = 0` with both buffers all zero: the
relative error is `0/0 = NaN`. -/
theorem spec_C10_witness :
    verifyStep (zeroV 0) (zeroV 0) = false
    ∧ 0 ∈ (verifyAux zeroV zeroV 1).2
    ∧ (verifyAux zeroV zeroV 1).1 + (verifyAux zeroV zeroV 1).2.length = 1
    ∧ (∀ x y : FVal, relative_error x y ≠ FVal.inf true) :=
  spec_C10 zeroV zeroV 1 0 (by norm_num)
    (Or.inl (by simp [relative_error, zeroV, FVal.fsub, FVal.fdiv, FVal.fabs]))

/-- Witness for C4 at `q = 0`: the relative error against an expected value
of 0 is the `0 / 0` NaN, and the check never passes. -/
theorem spec_C4_witness :
    (relative_error (FVal.fin 0) (FVal.fin 0)
        = if (0:ℚ) = 0 then FVal.nan else FVal.inf false)
    ∧ (∀ x : FVal, verifyStep x (FVal.fin 0) = false) :=
  spec_C4 0
